import Mathlib

/-!
Verification of the optree `PyTreeSpec` core (src/treespec/treespec.cpp and
src/treespec/unflatten.cpp) via a shallow embedding.  Python objects are
modelled by the inductive `PyObj`; host-runtime failures that the C++ code
does not itself guard (calling a null handle, unchecked `py::list` access,
casts that raise) are modelled by the error `Err.hostError`.
-/

namespace optree

/-- The structural kind of a tree node.  Modelled from the spec: the
`PyTreeKind` enumeration lives in `include/treespec.h`, which is not among
the sources; the spec lists the closed enumeration `Leaf, NoneMarker,
Sequence, NamedRecord, OrderedMapping, MutableSequence, Custom`, which we
number in that order (`Sequence` is `Tuple`, `NamedRecord` is `NamedTuple`,
`OrderedMapping` is `Dict`, `MutableSequence` is `List`).  Because the C++
deserializer stores an arbitrary integer tag with `static_cast<PyTreeKind>`,
an out-of-range tag is kept verbatim in the `Unknown` constructor. -/
inductive PyTreeKind where
  | Leaf
  | None
  | Tuple
  | NamedTuple
  | Dict
  | List
  | Custom
  | Unknown (tag : Int)
deriving DecidableEq, Repr

/-- Integer tag of a kind, as emitted by `ToPicklable`. -/
def tagOfKind : PyTreeKind → Int
  | .Leaf => 0
  | .None => 1
  | .Tuple => 2
  | .NamedTuple => 3
  | .Dict => 4
  | .List => 5
  | .Custom => 6
  | .Unknown t => t

/-- Kind obtained by `static_cast<PyTreeKind>` from an integer tag. -/
def kindOfTag (t : Int) : PyTreeKind :=
  if t = 0 then .Leaf
  else if t = 1 then .None
  else if t = 2 then .Tuple
  else if t = 3 then .NamedTuple
  else if t = 4 then .Dict
  else if t = 5 then .List
  else if t = 6 then .Custom
  else .Unknown t

/-- Model of the Python objects this core builds and inspects.  A Python
type object (for example a namedtuple class, or a registered custom type)
carries its name and, for namedtuple classes, the list of field names.
A mapping is an insertion-ordered association list, as in CPython.  The
result of a custom registration's `from_iterable` is modelled canonically
as `customV` tagging the registration, the auxiliary payload handle (which
the C++ passes verbatim, possibly null) and the children. -/
inductive PyObj where
  | pyNone
  | str (s : String)
  | intVal (n : Int)
  | tupleV (xs : List PyObj)
  | listV (xs : List PyObj)
  | dictV (entries : List (PyObj × PyObj))
  | typeV (name : String) (fields : List String)
  | namedTupleV (name : String) (fields : List String) (xs : List PyObj)
  | customV (reg : String) (aux : Option PyObj) (xs : List PyObj)
deriving Repr

mutual
/-- Deep structural equality of Python objects (Python `==`/`!=` on the
kinds of object this core manipulates). -/
def beqObj : PyObj → PyObj → Bool
  | .pyNone, .pyNone => true
  | .str s, .str t => s == t
  | .intVal m, .intVal n => m == n
  | .tupleV xs, .tupleV ys => beqObjList xs ys
  | .listV xs, .listV ys => beqObjList xs ys
  | .dictV ps, .dictV qs => beqEntryList ps qs
  | .typeV n f, .typeV n' f' => n == n' && f == f'
  | .namedTupleV n f xs, .namedTupleV n' f' ys => n == n' && f == f' && beqObjList xs ys
  | .customV r a xs, .customV r' a' ys => r == r' && beqObjOpt a a' && beqObjList xs ys
  | _, _ => false
termination_by structural a _ => a

def beqObjOpt : Option PyObj → Option PyObj → Bool
  | Option.none, Option.none => true
  | Option.some a, Option.some b => beqObj a b
  | _, _ => false
termination_by structural a _ => a

def beqObjList : List PyObj → List PyObj → Bool
  | [], [] => true
  | x :: xs, y :: ys => beqObj x y && beqObjList xs ys
  | _, _ => false
termination_by structural a _ => a

def beqEntryList : List (PyObj × PyObj) → List (PyObj × PyObj) → Bool
  | [], [] => true
  | (k, v) :: ps, (k', v') :: qs => beqObj k k' && beqObj v v' && beqEntryList ps qs
  | _, _ => false
termination_by structural a _ => a
end

mutual
theorem beqObj_iff : ∀ (a b : PyObj), beqObj a b = true ↔ a = b
  | a, b => by
    cases a <;> cases b
    case tupleV.tupleV xs ys =>
      have h := beqObjList_iff xs ys
      simp [beqObj, h]
    case listV.listV xs ys =>
      have h := beqObjList_iff xs ys
      simp [beqObj, h]
    case dictV.dictV ps qs =>
      have h := beqEntryList_iff ps qs
      simp [beqObj, h]
    case namedTupleV.namedTupleV n f xs n' f' ys =>
      have h := beqObjList_iff xs ys
      simp [beqObj, h, and_assoc]
    case customV.customV r a xs r' a' ys =>
      have h1 := beqObjOpt_iff a a'
      have h2 := beqObjList_iff xs ys
      simp [beqObj, h1, h2, and_assoc]
    all_goals simp [beqObj]
termination_by a _ => sizeOf a

theorem beqObjOpt_iff : ∀ (a b : Option PyObj), beqObjOpt a b = true ↔ a = b
  | a, b => by
    cases a <;> cases b
    case some.some x y =>
      have h := beqObj_iff x y
      simp [beqObjOpt, h]
    all_goals simp [beqObjOpt]
termination_by a _ => sizeOf a

theorem beqObjList_iff : ∀ (xs ys : List PyObj), beqObjList xs ys = true ↔ xs = ys
  | xs, ys => by
    cases xs <;> cases ys
    case cons.cons x xs y ys =>
      have h1 := beqObj_iff x y
      have h2 := beqObjList_iff xs ys
      simp [beqObjList, h1, h2]
    all_goals simp [beqObjList]
termination_by xs _ => sizeOf xs

theorem beqEntryList_iff :
    ∀ (ps qs : List (PyObj × PyObj)), beqEntryList ps qs = true ↔ ps = qs
  | ps, qs => by
    cases ps <;> cases qs
    case cons.cons p ps q qs =>
      obtain ⟨k, v⟩ := p
      obtain ⟨k', v'⟩ := q
      have h1 := beqObj_iff k k'
      have h2 := beqObj_iff v v'
      have h3 := beqEntryList_iff ps qs
      simp [beqEntryList, h1, h2, h3, and_assoc]
    all_goals simp [beqEntryList]
termination_by ps _ => sizeOf ps
end

instance : DecidableEq PyObj := fun a b => decidable_of_iff _ (beqObj_iff a b)

/-- One entry of a `PyTreeSpec` traversal (`PyTreeSpec::Node`).  The custom
registration is a non-owning pointer into the process-wide registry; we
model it by the registered type's name, with pointer identity of
registrations corresponding to name equality. -/
structure Node where
  kind : PyTreeKind
  arity : Int
  node_data : Option PyObj
  custom : Option String
  num_leaves : Int
  num_nodes : Int
deriving DecidableEq, Repr

/-- A tree specification: the post-order node traversal. -/
structure PyTreeSpec where
  traversal : List Node
deriving DecidableEq, Repr

/-- The registry of custom types, by type name. -/
abbrev Registry := List String

/-- Errors.  Each constructor corresponds to one `throw` site of the C++
sources; `hostError` stands for failures raised by the Python runtime
itself (failed casts, calls on null handles, unchecked accesses). -/
inductive Err where
  | logicTooFewElementsNode
  | logicTooFewElementsContainer
  | logicArityMismatch
  | logicLeafMakeNode
  | logicUnreachable
  | logicNotSingleton
  | logicKeyCountMismatch
  | logicFieldCountMismatch
  | logicAuxCountMismatch
  | invalidTooFewLeaves
  | invalidTooManyLeaves
  | runtimeMalformed
  | runtimeUnknownCustom
  | hostError
deriving DecidableEq, Repr

deriving instance DecidableEq for Except

/-- `PyTreeSpec::num_leaves`. -/
def PyTreeSpec.numLeaves (s : PyTreeSpec) : Int :=
  match s.traversal.getLast? with
  | Option.none => 0
  | Option.some n => n.num_leaves

/-- `PyTreeSpec::num_nodes`. -/
def PyTreeSpec.numNodes (s : PyTreeSpec) : Int := s.traversal.length

/-- CPython dict assignment `d[k] = v`: replaces the value in place if the
key is present (keeping its position), appends otherwise. -/
def dictAssign : List (PyObj × PyObj) → PyObj → PyObj → List (PyObj × PyObj)
  | [], k, v => [(k, v)]
  | (k', v') :: rest, k, v =>
      if k' = k then (k', v) :: rest else (k', v') :: dictAssign rest k v

/-- Build a dict by assigning key/value pairs left to right. -/
def dictOfPairs (ps : List (PyObj × PyObj)) : List (PyObj × PyObj) :=
  ps.foldl (fun d kv => dictAssign d kv.1 kv.2) []

/-- CPython dict lookup. -/
def dictLookup : List (PyObj × PyObj) → PyObj → Option PyObj
  | [], _ => Option.none
  | (k', v') :: rest, k => if k' = k then Option.some v' else dictLookup rest k

/-- `PyTreeSpec::MakeNode`: build one container from a node record and its
already-built children (given left to right). -/
def makeNode (node : Node) (children : List PyObj) : Except Err PyObj :=
  if (children.length : Int) ≠ node.arity then .error .logicArityMismatch
  else
    match node.kind with
    | .Leaf => .error .logicLeafMakeNode
    | .None => .ok .pyNone
    | .Tuple => .ok (.tupleV children)
    | .NamedTuple =>
        match node.node_data with
        | Option.some (.typeV name fields) => .ok (.namedTupleV name fields children)
        | _ => .error .hostError
    | .List => .ok (.listV children)
    | .Dict =>
        if node.arity ≤ 0 then .ok (.dictV [])
        else
          match node.node_data with
          | Option.some (.listV keys) =>
              if node.arity ≤ (keys.length : Int) then
                .ok (.dictV (dictOfPairs ((keys.take node.arity.toNat).zip children)))
              else .error .hostError
          | _ => .error .hostError
    | .Custom =>
        match node.custom with
        | Option.some reg => .ok (.customV reg node.node_data children)
        | Option.none => .error .hostError
    | .Unknown _ => .error .logicUnreachable

/-- Is this node handled by the leaf branch of `UnflattenImpl`
(`PyTreeKind::Leaf` and `PyTreeKind::None` share that branch)? -/
def leafLike (n : Node) : Bool :=
  match n.kind with
  | .Leaf => true
  | .None => true
  | _ => false

/-- The loop of `PyTreeSpec::UnflattenImpl`.  The agenda is kept with its
top at the head of the list, so the C++ vector's last `arity` elements in
original order are `(agenda.take arity).reverse`.  Returns the final agenda
and the unconsumed leaves. -/
def unflattenGo : List Node → List PyObj → List PyObj →
    Except Err (List PyObj × List PyObj)
  | [], agenda, leaves => .ok (agenda, leaves)
  | node :: rest, agenda, leaves =>
      if (agenda.length : Int) < node.arity then .error .logicTooFewElementsNode
      else
        match node.kind with
        | .Leaf | .None =>
            match leaves with
            | [] => .error .invalidTooFewLeaves
            | l :: ls => unflattenGo rest (l :: agenda) ls
        | .Tuple | .NamedTuple | .List | .Dict | .Custom =>
            let children : List PyObj :=
              if 0 < node.arity then (agenda.take node.arity.toNat).reverse else []
            match makeNode node children with
            | .error e => .error e
            | .ok out => unflattenGo rest (out :: agenda.drop node.arity.toNat) leaves
        | .Unknown _ => .error .logicUnreachable

/-- `PyTreeSpec::UnflattenImpl`: replay the traversal over the leaves. -/
def unflattenImpl (s : PyTreeSpec) (leaves : List PyObj) : Except Err PyObj :=
  match unflattenGo s.traversal [] leaves with
  | .error e => .error e
  | .ok (agenda, rest) =>
      if rest ≠ [] then .error .invalidTooManyLeaves
      else
        match agenda with
        | [a] => .ok a
        | _ => .error .logicNotSingleton

/-- Instrumented copy of `unflattenGo` that also records the agenda size
after each processed node; its second component is proved to coincide with
`unflattenGo` (`unflattenGoT_snd`). -/
def unflattenGoT : List Node → List PyObj → List PyObj →
    List Nat × Except Err (List PyObj × List PyObj)
  | [], agenda, leaves => ([], .ok (agenda, leaves))
  | node :: rest, agenda, leaves =>
      if (agenda.length : Int) < node.arity then ([], .error .logicTooFewElementsNode)
      else
        match node.kind with
        | .Leaf | .None =>
            match leaves with
            | [] => ([], .error .invalidTooFewLeaves)
            | l :: ls =>
                let r := unflattenGoT rest (l :: agenda) ls
                ((l :: agenda).length :: r.1, r.2)
        | .Tuple | .NamedTuple | .List | .Dict | .Custom =>
            let children : List PyObj :=
              if 0 < node.arity then (agenda.take node.arity.toNat).reverse else []
            match makeNode node children with
            | .error e => ([], .error e)
            | .ok out =>
                let agenda2 := out :: agenda.drop node.arity.toNat
                let r := unflattenGoT rest agenda2 leaves
                (agenda2.length :: r.1, r.2)
        | .Unknown _ => ([], .error .logicUnreachable)

/-- `py::repr`, modelled for the sorts of object that appear as mapping
keys or auxiliary data in renderings (strings, integers, `None`); other
objects get an abstract placeholder. -/
def pyRepr : PyObj → String
  | .str s => "\x27" ++ s ++ "\x27"
  | .intVal n => toString n
  | .pyNone => "None"
  | _ => "<object>"

/-- `py::str`, modelled like `pyRepr` but without quoting strings. -/
def pyStr : PyObj → String
  | .str s => s
  | .intVal n => toString n
  | .pyNone => "None"
  | _ => "<object>"

/-- The loop of `PyTreeSpec::ToString`.  The agenda holds rendered
fragments, top at the head; a node's children in original order are
`(agenda.take arity).reverse`.  Unchecked host accesses (iterating a null
or non-list handle, `reinterpret_borrow` of the wrong type) are
`hostError`. -/
def toStringGo : List Node → List String → Except Err (List String)
  | [], agenda => .ok agenda
  | node :: rest, agenda =>
      if (agenda.length : Int) < node.arity then .error .logicTooFewElementsContainer
      else
        let childList := (agenda.take node.arity.toNat).reverse
        let children := String.intercalate ", " childList
        match node.kind with
        | .Leaf => toStringGo rest ("*" :: agenda)
        | _ =>
            match
              (match node.kind with
               | .None => .ok "None"
               | .Tuple =>
                   let children := if node.arity = 1 then children ++ "," else children
                   .ok ("(" ++ children ++ ")")
               | .List => .ok ("[" ++ children ++ "]")
               | .Dict =>
                   match node.node_data with
                   | Option.some (.listV keys) =>
                       if (keys.length : Int) ≠ node.arity then .error Err.logicKeyCountMismatch
                       else
                         .ok ("\x7b" ++
                           String.intercalate ", "
                             ((keys.zip childList).map fun kc =>
                               pyRepr kc.1 ++ ": " ++ kc.2) ++ "\x7d")
                   | _ => .error Err.hostError
               | .NamedTuple =>
                   match node.node_data with
                   | Option.some (.typeV name fields) =>
                       if (fields.length : Int) ≠ node.arity then .error Err.logicFieldCountMismatch
                       else
                         .ok (name ++ "(" ++
                           String.intercalate ", "
                             ((fields.zip childList).map fun fc =>
                               fc.1 ++ "=" ++ fc.2) ++ ")")
                   | _ => .error Err.hostError
               | .Custom =>
                   match node.custom with
                   | Option.none => .error Err.hostError
                   | Option.some reg =>
                       if reg = "OrderedDict" then
                         match node.node_data with
                         | Option.some (.listV keys) =>
                             if keys.length ≤ childList.length then
                               .ok (reg ++ "([" ++
                                 String.intercalate ", "
                                   ((keys.zip childList).map fun kc =>
                                     "(" ++ pyRepr kc.1 ++ ", " ++ kc.2 ++ ")") ++ "])")
                             else .error Err.hostError
                         | _ => .error Err.hostError
                       else if reg = "defaultdict" then
                         match node.node_data with
                         | Option.some (.tupleV aux) =>
                             if (aux.length : Int) ≠ 2 then .error Err.logicAuxCountMismatch
                             else
                               match aux with
                               | [factory, .tupleV keys] =>
                                   if (keys.length : Int) ≠ node.arity then
                                     .error Err.logicKeyCountMismatch
                                   else
                                     .ok (reg ++ "(" ++ pyRepr factory ++ ", \x7b" ++
                                       String.intercalate ", "
                                         ((keys.zip childList).map fun kc =>
                                           pyRepr kc.1 ++ ": " ++ kc.2) ++ "\x7d)")
                               | _ => .error Err.hostError
                         | _ => .error Err.hostError
                       else if reg = "deque" then
                         .ok (reg ++ "([" ++ children ++ "])")
                       else
                         let data :=
                           match node.node_data with
                           | Option.some d => "[" ++ pyStr d ++ "]"
                           | Option.none => ""
                         .ok ("CustomTreeNode(" ++ reg ++ data ++ ", [" ++ children ++ "])")
               | _ => .error Err.logicUnreachable : Except Err String) with
            | .error e => .error e
            | .ok representation =>
                toStringGo rest (representation :: agenda.drop node.arity.toNat)

/-- `PyTreeSpec::ToString`. -/
def toStringImpl (s : PyTreeSpec) : Except Err String :=
  match toStringGo s.traversal [] with
  | .error e => .error e
  | .ok [a] => .ok ("PyTreeSpec(" ++ a ++ ")")
  | .ok _ => .error .logicNotSingleton

/-- Registry lookup by type identity (`PyTreeTypeRegistry::Lookup` applied
to a type object): succeeds exactly on registered type objects. -/
def lookupReg (reg : Registry) (obj : PyObj) : Option String :=
  match obj with
  | .typeV name _ => if reg.contains name then Option.some name else Option.none
  | _ => Option.none

/-- One record of `PyTreeSpec::ToPicklable`: the 6-tuple
`(kind, arity, node_data-or-None, custom-type-or-None, num_leaves,
num_nodes)`. -/
def encodeNode (n : Node) : PyObj :=
  .tupleV [ .intVal (tagOfKind n.kind), .intVal n.arity,
            n.node_data.getD .pyNone,
            (match n.custom with
             | Option.some r => .typeV r []
             | Option.none => .pyNone),
            .intVal n.num_leaves, .intVal n.num_nodes ]

/-- `PyTreeSpec::ToPicklable`. -/
def toPicklable (s : PyTreeSpec) : List PyObj := s.traversal.map encodeNode

/-- Decode one record of `PyTreeSpec::FromPicklableImpl`'s loop. -/
def decodeNode (reg : Registry) (item : PyObj) : Except Err Node :=
  match item with
  | .tupleV [t0, t1, t2, t3, t4, t5] =>
      match t0, t1 with
      | .intVal tag, .intVal ar =>
          let kind := kindOfTag tag
          match
            (match kind with
             | .NamedTuple =>
                 match t2 with
                 | .typeV _ _ => .ok (Option.some t2)
                 | _ => .error Err.hostError
             | .Dict =>
                 match t2 with
                 | .listV _ => .ok (Option.some t2)
                 | _ => .error Err.hostError
             | .Custom => .ok (Option.some t2)
             | _ =>
                 match t2 with
                 | .pyNone => .ok Option.none
                 | _ => .error Err.runtimeMalformed : Except Err (Option PyObj)) with
          | .error e => .error e
          | .ok nd =>
              match
                (match kind with
                 | .Custom =>
                     match t3 with
                     | .pyNone => .error Err.runtimeUnknownCustom
                     | _ =>
                         match lookupReg reg t3 with
                         | Option.some r => .ok (Option.some r)
                         | Option.none => .error Err.runtimeUnknownCustom
                 | _ =>
                     match t3 with
                     | .pyNone => .ok Option.none
                     | _ => .error Err.runtimeMalformed : Except Err (Option String)) with
              | .error e => .error e
              | .ok cu =>
                  match t4, t5 with
                  | .intVal nl, .intVal nn => .ok ⟨kind, ar, nd, cu, nl, nn⟩
                  | _, _ => .error .hostError
      | _, _ => .error .hostError
  | .tupleV _ => .error .runtimeMalformed
  | _ => .error .hostError

/-- The loop of `PyTreeSpec::FromPicklableImpl`, over the already-cast
list of records. -/
def fromPicklableGo (reg : Registry) : List PyObj → Except Err (List Node)
  | [] => .ok []
  | item :: rest =>
      match decodeNode reg item with
      | .error e => .error e
      | .ok n =>
          match fromPicklableGo reg rest with
          | .error e => .error e
          | .ok ns => .ok (n :: ns)

/-- `PyTreeSpec::FromPicklableImpl` (and `FromPicklable`, which merely
forwards to it). -/
def fromPicklableImpl (reg : Registry) (picklable : List PyObj) : Except Err PyTreeSpec :=
  match fromPicklableGo reg picklable with
  | .error e => .error e
  | .ok ns => .ok ⟨ns⟩

/-- Per-node part of `PyTreeSpec::operator==`. -/
def nodeEq (a b : Node) : Bool :=
  if a.kind ≠ b.kind ∨ a.arity ≠ b.arity ∨ a.node_data.isSome ≠ b.node_data.isSome
      ∨ a.custom ≠ b.custom then false
  else
    match a.node_data, b.node_data with
    | Option.some d, Option.some e => beqObj d e
    | _, _ => true

/-- `PyTreeSpec::operator==`. -/
def specEq (a b : PyTreeSpec) : Bool :=
  if a.traversal.length ≠ b.traversal.length then false
  else (a.traversal.zip b.traversal).all fun p => nodeEq p.1 p.2

/-- Modelled from the spec: the post-order consistency invariant of §3 —
scan the node sequence left to right maintaining a stack count, where each
`Leaf`/`NoneMarker` pushes one item and each other node pops exactly
`arity` items and pushes one; `Option.none` signals underflow. -/
def postOrderRun : List Node → Int → Option Int
  | [], k => Option.some k
  | n :: t, k =>
      match n.kind with
      | .Leaf | .None => postOrderRun t (k + 1)
      | _ => if k < n.arity then Option.none else postOrderRun t (k - n.arity + 1)

/-- Modelled from the spec: a Spec is post-order consistent when the §3
stack machine never underflows and ends with exactly one item. -/
def postOrderValid (s : PyTreeSpec) : Bool :=
  postOrderRun s.traversal 0 == Option.some 1

/-- Number of traversal nodes handled by the leaf branch of the
reconstruction machine (`Leaf` and `None` kinds). -/
def countLeafLike (t : List Node) : Nat := t.countP leafLike

/-- Maximum node arity occurring in a Spec (0 when empty). -/
def maxNodeArity (s : PyTreeSpec) : Int :=
  s.traversal.foldl (fun m n => max m n.arity) 0

/-- The node's kind is one of the enumerated ones (no smuggled tag). -/
def kindKnown (n : Node) : Bool :=
  match n.kind with
  | .Unknown _ => false
  | _ => true

/-- The auxiliary data is shaped so that `makeNode` succeeds for this
node's kind. -/
def nodeAuxOk (n : Node) : Bool :=
  match n.kind with
  | .NamedTuple =>
      match n.node_data with
      | Option.some (.typeV _ _) => true
      | _ => false
  | .Dict =>
      if n.arity ≤ 0 then true
      else
        match n.node_data with
        | Option.some (.listV ks) => decide (n.arity ≤ (ks.length : Int))
        | _ => false
  | .Custom => n.custom.isSome
  | _ => true

/-- A well-shaped traversal node: known kind, nonnegative arity, arity 0
on leaf-branch nodes, and auxiliary data usable by `makeNode`. -/
def nodeOk (n : Node) : Bool :=
  kindKnown n && decide (0 ≤ n.arity) && (!leafLike n || decide (n.arity = 0)) && nodeAuxOk n

/-- A valid Spec for reconstruction: well-shaped nodes and a post-order
consistent traversal. -/
def wfSpec (s : PyTreeSpec) : Bool :=
  s.traversal.all nodeOk && (postOrderRun s.traversal 0 == Option.some 1)

/-- A node as §3 requires it for serialization: auxiliary data present and
shaped according to the kind, a registration present exactly for `Custom`
nodes and resolvable in the registry. -/
def encNodeOk (reg : Registry) (n : Node) : Bool :=
  match n.kind with
  | .Leaf | .None | .Tuple | .List =>
      n.node_data.isNone && n.custom.isNone
  | .NamedTuple =>
      (match n.node_data with
       | Option.some (.typeV _ _) => true
       | _ => false) && n.custom.isNone
  | .Dict =>
      (match n.node_data with
       | Option.some (.listV _) => true
       | _ => false) && n.custom.isNone
  | .Custom =>
      n.node_data.isSome &&
        (match n.custom with
         | Option.some r => reg.contains r
         | Option.none => false)
  | .Unknown _ => false

/-- The per-record properties that `FromPicklableImpl` actually enforces
on each decoded node: aux presence/shape appropriate to the kind, and a
resolved registration exactly for `Custom` nodes. -/
def decodedNodeOk (reg : Registry) (n : Node) : Bool :=
  (match n.kind with
   | .NamedTuple =>
       match n.node_data with
       | Option.some (.typeV _ _) => true
       | _ => false
   | .Dict =>
       match n.node_data with
       | Option.some (.listV _) => true
       | _ => false
   | .Custom => n.node_data.isSome
   | _ => n.node_data.isNone)
  && (match n.kind with
      | .Custom =>
          match n.custom with
          | Option.some r => reg.contains r
          | Option.none => false
      | _ => n.custom.isNone)

/-! Concrete fixtures used by the claim theorems. -/

/-- A leaf node. -/
def nodeLeaf : Node := ⟨.Leaf, 0, Option.none, Option.none, 1, 1⟩

/-- A `None` node (arity 0, no leaves below it, per §3). -/
def nodeNone : Node := ⟨.None, 0, Option.none, Option.none, 0, 1⟩

/-- A tuple node of the given arity with accurate aggregate counts for
all-leaf children. -/
def nodeTuple (k : Int) : Node := ⟨.Tuple, k, Option.none, Option.none, k, k + 1⟩

/-- A list node of the given arity with accurate aggregate counts for
all-leaf children. -/
def nodeList (k : Int) : Node := ⟨.List, k, Option.none, Option.none, k, k + 1⟩

/-- The Spec of the structure from §8's concrete scenario,
`a dict with key "a" mapping to a two-element list of leaves and key "b"
mapping to None`: post-order traversal leaf, leaf, list, none, dict. -/
def sampleDictSpec : PyTreeSpec :=
  ⟨[nodeLeaf, nodeLeaf, nodeList 2, nodeNone,
    ⟨.Dict, 2, Option.some (.listV [.str "a", .str "b"]), Option.none, 2, 5⟩]⟩

/-- A Spec whose only node is a `None` marker. -/
def sampleNoneSpec : PyTreeSpec := ⟨[nodeNone]⟩

/-- A single-node Spec: a one-element tuple around a leaf. -/
def sampleTuple1Spec : PyTreeSpec := ⟨[nodeLeaf, nodeTuple 1]⟩

/-- A mapping node whose key list repeats the key "a". -/
def sampleDupKeySpec : PyTreeSpec :=
  ⟨[nodeLeaf, nodeLeaf,
    ⟨.Dict, 2, Option.some (.listV [.str "a", .str "a"]), Option.none, 2, 3⟩]⟩

/-- A three-leaf tuple Spec. -/
def sampleThreeLeafSpec : PyTreeSpec := ⟨[nodeLeaf, nodeLeaf, nodeLeaf, nodeTuple 3]⟩

/-- A pair of pairs of leaves: every container has arity 2, but replaying
the traversal drives the agenda to depth 3. -/
def samplePairSpec : PyTreeSpec :=
  ⟨[nodeLeaf, nodeLeaf, nodeTuple 2, nodeLeaf, nodeLeaf, nodeTuple 2,
    ⟨.Tuple, 2, Option.none, Option.none, 4, 7⟩]⟩

/-- The empty Spec (no traversal nodes). -/
def emptySpec : PyTreeSpec := ⟨[]⟩

/-- A Spec whose root is a registered custom container holding one leaf. -/
def sampleCustomSpec : PyTreeSpec :=
  ⟨[nodeLeaf, ⟨.Custom, 1, Option.some (.str "aux"), Option.some "MyPair", 1, 2⟩]⟩

/-- The three-leaf tuple Spec with deliberately wrong aggregate counts. -/
def sampleMiscountSpec : PyTreeSpec :=
  ⟨[⟨.Leaf, 0, Option.none, Option.none, 7, 9⟩,
    ⟨.Leaf, 0, Option.none, Option.none, 7, 9⟩,
    ⟨.Leaf, 0, Option.none, Option.none, 7, 9⟩,
    ⟨.Tuple, 3, Option.none, Option.none, 7, 9⟩]⟩

/-! ## Helper lemmas -/

theorem beqObj_refl (a : PyObj) : beqObj a a = true := (beqObj_iff a a).mpr rfl

theorem unflattenGoT_snd : ∀ (t : List Node) (a l : List PyObj),
    (unflattenGoT t a l).2 = unflattenGo t a l
  | [], _, _ => rfl
  | node :: rest, a, l => by
    by_cases h : (a.length : Int) < node.arity
    · simp [unflattenGoT, unflattenGo, h]
    · cases hk : node.kind <;>
        simp only [unflattenGoT, unflattenGo, hk, if_neg h] <;>
        first
          | rfl
          | (cases l <;> first | rfl | exact unflattenGoT_snd rest _ _)
          | (rcases hmk : makeNode node
                (if 0 < node.arity then (a.take node.arity.toNat).reverse else []) with e | out <;>
              simp only [hmk] <;> first | rfl | exact unflattenGoT_snd rest _ _)

theorem unflattenGoT_bound : ∀ (t : List Node) (a l : List PyObj) (x : ℕ),
    x ∈ (unflattenGoT t a l).1 → x ≤ a.length + t.length
  | [], _, _, _ => by intro h; simp [unflattenGoT] at h
  | node :: rest, a, l, x => by
    intro hx
    by_cases h : (a.length : Int) < node.arity
    · simp [unflattenGoT, h] at hx
    · cases hk : node.kind <;>
        simp only [unflattenGoT, hk, if_neg h] at hx <;>
        first
          | (simp at hx; done)
          | (cases l with
             | nil => simp at hx
             | cons y ls =>
                 have hx' : x = (y :: a).length ∨ x ∈ (unflattenGoT rest (y :: a) ls).1 := by
                   simpa using hx
                 rcases hx' with rfl | hx'
                 · simp only [List.length_cons]; omega
                 · have := unflattenGoT_bound rest (y :: a) ls x hx'
                   simp only [List.length_cons] at this ⊢
                   omega)
          | (rcases hmk : makeNode node
                 (if 0 < node.arity then (a.take node.arity.toNat).reverse else []) with e | out <;>
               simp only [hmk] at hx
             · simp at hx
             · have hx' : x = (out :: a.drop node.arity.toNat).length ∨
                   x ∈ (unflattenGoT rest (out :: a.drop node.arity.toNat) l).1 := by
                 simpa using hx
               have hd : (a.drop node.arity.toNat).length ≤ a.length := by
                 simp [List.length_drop]
               rcases hx' with rfl | hx'
               · simp only [List.length_cons]
                 omega
               · have := unflattenGoT_bound rest (out :: a.drop node.arity.toNat) l x hx'
                 simp only [List.length_cons] at this ⊢
                 omega)

theorem unflattenGo_consumption : ∀ (t : List Node) (a l a' l' : List PyObj),
    unflattenGo t a l = .ok (a', l') → l.length = countLeafLike t + l'.length
  | [], a, l, a', l' => by
    intro h
    simp only [unflattenGo, Except.ok.injEq, Prod.mk.injEq] at h
    obtain ⟨rfl, rfl⟩ := h
    simp [countLeafLike]
  | node :: rest, a, l, a', l' => by
    intro h
    by_cases hif : (a.length : Int) < node.arity
    · simp [unflattenGo, hif] at h
    · cases hk : node.kind <;>
        simp only [unflattenGo, hk, if_neg hif] at h <;>
        first
          | (simp at h; done)
          | (cases l with
             | nil => simp at h
             | cons y ls =>
                 have := unflattenGo_consumption rest (y :: a) ls a' l' h
                 simp only [countLeafLike] at this
                 simp [countLeafLike, List.countP_cons, leafLike, hk]
                 omega)
          | (rcases hmk : makeNode node
                 (if 0 < node.arity then (a.take node.arity.toNat).reverse else []) with e | out <;>
               simp only [hmk] at h
             · simp at h
             · have := unflattenGo_consumption rest _ l a' l' h
               simp only [countLeafLike] at this
               simp [countLeafLike, List.countP_cons, leafLike, hk]
               omega)

theorem countLeafLike_cons (n : Node) (t : List Node) :
    countLeafLike (n :: t) = countLeafLike t + (if leafLike n then 1 else 0) := by
  simp [countLeafLike, List.countP_cons]

theorem makeNode_ok (n : Node) (children : List PyObj)
    (hok : nodeOk n = true) (hleaf : leafLike n = false)
    (hlen : (children.length : Int) = n.arity) :
    ∃ v, makeNode n children = .ok v := by
  simp only [nodeOk, Bool.and_eq_true, decide_eq_true_eq] at hok
  obtain ⟨⟨⟨hkind, har⟩, _⟩, haux⟩ := hok
  have hcond : ¬ ((children.length : Int) ≠ n.arity) := by simp [hlen]
  cases hk : n.kind
  · simp [leafLike, hk] at hleaf
  · simp [leafLike, hk] at hleaf
  · exact ⟨.tupleV children, by simp only [makeNode, if_neg hcond, hk]⟩
  · simp only [nodeAuxOk, hk] at haux
    rcases hnd : n.node_data with _ | d <;> rw [hnd] at haux
    · simp at haux
    · cases d <;> try simp at haux
      rename_i name fields
      exact ⟨.namedTupleV name fields children,
        by simp only [makeNode, if_neg hcond, hk, hnd]⟩
  · by_cases hz : n.arity ≤ 0
    · exact ⟨.dictV [], by simp only [makeNode, if_neg hcond, hk, if_pos hz]⟩
    · simp only [nodeAuxOk, hk, if_neg hz] at haux
      rcases hnd : n.node_data with _ | d <;> rw [hnd] at haux
      · simp at haux
      · cases d <;> try simp at haux
        rename_i keys
        refine ⟨.dictV (dictOfPairs ((keys.take n.arity.toNat).zip children)), ?_⟩
        simp only [makeNode, if_neg hcond, hk, if_neg hz, hnd, if_pos haux]
  · exact ⟨.listV children, by simp only [makeNode, if_neg hcond, hk]⟩
  · simp only [nodeAuxOk, hk, Option.isSome_iff_exists] at haux
    obtain ⟨r, hcu⟩ := haux
    exact ⟨.customV r n.node_data children,
      by simp only [makeNode, if_neg hcond, hk, hcu]⟩
  · simp [kindKnown, hk] at hkind

theorem unflattenGo_run : ∀ (t : List Node) (a l : List PyObj) (f : Int),
    t.all nodeOk = true → postOrderRun t (a.length : Int) = Option.some f →
    (if l.length < countLeafLike t
     then unflattenGo t a l = .error .invalidTooFewLeaves
     else ∃ a', unflattenGo t a l = .ok (a', l.drop (countLeafLike t)) ∧ (a'.length : Int) = f)
  | [], a, l, f => by
    intro _ hrun
    simp only [postOrderRun, Option.some.injEq] at hrun
    subst hrun
    simp [unflattenGo, countLeafLike]
  | node :: rest, a, l, f => by
    intro hall hrun
    simp only [List.all_cons, Bool.and_eq_true] at hall
    obtain ⟨hok, hall⟩ := hall
    cases hk : node.kind <;>
    first
    | (have hlf : leafLike node = true := by simp [leafLike, hk]
       have har0 : node.arity = 0 := by
         have hok' := hok
         simp only [nodeOk, Bool.and_eq_true, Bool.or_eq_true, Bool.not_eq_true',
           decide_eq_true_eq] at hok'
         rcases hok' with ⟨⟨_, hcc | hcc⟩, _⟩
         · rw [hlf] at hcc; cases hcc
         · exact hcc
       have hif : ¬ ((a.length : Int) < node.arity) := by rw [har0]; omega
       simp only [postOrderRun, hk] at hrun
       have hcount : countLeafLike (node :: rest) = countLeafLike rest + 1 := by
         rw [countLeafLike_cons]; simp [hlf]
       rw [hcount]
       cases l with
       | nil =>
         rw [if_pos (by simp)]
         simp [unflattenGo, hk, hif]
       | cons y ls =>
         have hrun' : postOrderRun rest (((y :: a).length : Int)) = Option.some f := by
           simp only [List.length_cons]
           push_cast
           exact hrun
         have ih := unflattenGo_run rest (y :: a) ls f hall hrun'
         by_cases hc : ls.length < countLeafLike rest
         · rw [if_pos hc] at ih
           rw [if_pos (by simp only [List.length_cons]; omega)]
           simp only [unflattenGo, hk, if_neg hif]
           exact ih
         · rw [if_neg hc] at ih
           obtain ⟨a', hgo, hlen⟩ := ih
           rw [if_neg (by simp only [List.length_cons]; omega)]
           refine ⟨a', ?_, hlen⟩
           simp only [unflattenGo, hk, if_neg hif, List.drop_succ_cons]
           exact hgo)
    | (have hlf : leafLike node = false := by simp [leafLike, hk]
       have har : 0 ≤ node.arity := by
         have hok' := hok
         simp only [nodeOk, Bool.and_eq_true, decide_eq_true_eq] at hok'
         exact hok'.1.1.2
       simp only [postOrderRun, hk] at hrun
       by_cases hlt : (a.length : Int) < node.arity
       · rw [if_pos hlt] at hrun; simp at hrun
       · rw [if_neg hlt] at hrun
         have hchild : (((if 0 < node.arity
             then (a.take node.arity.toNat).reverse else []) : List PyObj).length : Int)
             = node.arity := by
           by_cases hz : 0 < node.arity
           · simp only [if_pos hz, List.length_reverse, List.length_take]
             omega
           · simp only [if_neg hz, List.length_nil]
             omega
         obtain ⟨out, hmk⟩ := makeNode_ok node _ hok hlf hchild
         have hlen2 : (((out :: a.drop node.arity.toNat) : List PyObj).length : Int)
             = (a.length : Int) - node.arity + 1 := by
           simp only [List.length_cons, List.length_drop]
           omega
         have ih := unflattenGo_run rest (out :: a.drop node.arity.toNat) l f hall
           (by rw [hlen2]; exact hrun)
         have hcount : countLeafLike (node :: rest) = countLeafLike rest := by
           rw [countLeafLike_cons]; simp [hlf]
         rw [hcount]
         by_cases hc : l.length < countLeafLike rest
         · rw [if_pos hc] at ih
           rw [if_pos hc]
           simp only [unflattenGo, hk, if_neg hlt, hmk]
           exact ih
         · rw [if_neg hc] at ih
           obtain ⟨a', hgo, hl⟩ := ih
           rw [if_neg hc]
           refine ⟨a', ?_, hl⟩
           simp only [unflattenGo, hk, if_neg hlt, hmk]
           exact hgo)
    | (simp [nodeOk, kindKnown, hk] at hok; done)


theorem dictLookup_assign : ∀ (d : List (PyObj × PyObj)) (k v : PyObj),
    dictLookup (dictAssign d k v) k = Option.some v
  | [], k, v => by simp [dictAssign, dictLookup]
  | (k', v') :: rest, k, v => by
    by_cases h : k' = k
    · simp [dictAssign, dictLookup, h]
    · simp [dictAssign, dictLookup, h, dictLookup_assign rest k v]

theorem dictAssign_length_le (d : List (PyObj × PyObj)) (k v : PyObj) :
    (dictAssign d k v).length ≤ d.length + 1 := by
  induction d with
  | nil => simp [dictAssign]
  | cons p rest ih =>
    obtain ⟨k', v'⟩ := p
    by_cases h : k' = k
    · simp [dictAssign, h]
    · simp only [dictAssign, if_neg h, List.length_cons]
      omega

theorem dictFold_length : ∀ (ps acc : List (PyObj × PyObj)),
    (ps.foldl (fun d kv => dictAssign d kv.1 kv.2) acc).length ≤ acc.length + ps.length
  | [], acc => by simp
  | p :: ps, acc => by
    simp only [List.foldl_cons]
    have h1 := dictFold_length ps (dictAssign acc p.1 p.2)
    have h2 := dictAssign_length_le acc p.1 p.2
    simp only [List.length_cons]
    omega

theorem dictOfPairs_length_le (ps : List (PyObj × PyObj)) :
    (dictOfPairs ps).length ≤ ps.length := by
  have := dictFold_length ps []
  simpa [dictOfPairs] using this



theorem decodeNode_ok (reg : Registry) (item : PyObj) (n : Node)
    (h : decodeNode reg item = .ok n) : decodedNodeOk reg n = true := by
  rcases item with _ | _ | _ | ts | _ | _ | _ | _ | _ <;> try (cases h)
  rcases ts with _ | ⟨t0, _ | ⟨t1, _ | ⟨t2, _ | ⟨t3, _ | ⟨t4, _ | ⟨t5, _ | ⟨t6, ts⟩⟩⟩⟩⟩⟩⟩ <;>
    try (cases h)
  simp only [decodeNode] at h
  rcases t0 with _ | s0 | tag | xs0 | xs0 | ps0 | ⟨nm0, f0⟩ | ⟨nm0, f0, xs0⟩ | ⟨r0, a0, xs0⟩ <;>
    try (cases h)
  rcases t1 with _ | s1 | ar | xs1 | xs1 | ps1 | ⟨nm1, f1⟩ | ⟨nm1, f1, xs1⟩ | ⟨r1, a1, xs1⟩ <;>
    try (cases h)
  dsimp only at h
  rcases hk : kindOfTag tag with _ | _ | _ | _ | _ | _ | _ | tg <;> rw [hk] at h <;>
    cases t2 <;> try (cases h)
  all_goals
    (rcases t3 with _ | s3 | n3 | xs3 | xs3 | ps3 | ⟨nm3, f3⟩ | ⟨nm3, f3, xs3⟩ | ⟨r3, a3, xs3⟩ <;>
      try (cases h))
  all_goals try (simp only [lookupReg] at h)
  all_goals try (by_cases hr : List.contains reg nm3 = true)
  all_goals try (rw [if_pos hr] at h)
  all_goals try (rw [if_neg hr] at h)
  all_goals try (cases h)
  all_goals
    (rcases t4 with _ | s4 | n4 | xs4 | xs4 | ps4 | ⟨nm4, f4⟩ | ⟨nm4, f4, xs4⟩ | ⟨r4, a4, xs4⟩ <;>
      try (cases h))
  all_goals
    (rcases t5 with _ | s5 | n5 | xs5 | xs5 | ps5 | ⟨nm5, f5⟩ | ⟨nm5, f5, xs5⟩ | ⟨r5, a5, xs5⟩ <;>
      try (cases h))
  all_goals try (cases h)
  all_goals simp_all [decodedNodeOk]

theorem fromPicklableGo_ok : ∀ (reg : Registry) (items : List PyObj) (ns : List Node),
    fromPicklableGo reg items = .ok ns → ∀ n ∈ ns, decodedNodeOk reg n = true
  | reg, [], ns => by
    intro h n hn
    simp only [fromPicklableGo] at h
    cases h
    simp at hn
  | reg, item :: items, ns => by
    intro h n hn
    simp only [fromPicklableGo] at h
    rcases hd : decodeNode reg item with e | nd <;> rw [hd] at h
    · cases h
    · rcases hg : fromPicklableGo reg items with e | ns' <;> rw [hg] at h
      · cases h
      · cases h
        rcases List.mem_cons.mp hn with rfl | hn'
        · exact decodeNode_ok reg item n hd
        · exact fromPicklableGo_ok reg items ns' hg n hn'

theorem decode_encode_node (reg : Registry) (n : Node) (h : encNodeOk reg n = true) :
    decodeNode reg (encodeNode n) = .ok n := by
  obtain ⟨k, ar, nd, cu, nl, nn⟩ := n
  cases hk : k <;> simp only [encNodeOk, hk, Bool.and_eq_true] at h
  · obtain ⟨h1, h2⟩ := h
    rw [Option.isNone_iff_eq_none] at h1 h2
    subst h1; subst h2; subst hk
    rfl
  · obtain ⟨h1, h2⟩ := h
    rw [Option.isNone_iff_eq_none] at h1 h2
    subst h1; subst h2; subst hk
    rfl
  · obtain ⟨h1, h2⟩ := h
    rw [Option.isNone_iff_eq_none] at h1 h2
    subst h1; subst h2; subst hk
    rfl
  · obtain ⟨h1, h2⟩ := h
    rw [Option.isNone_iff_eq_none] at h2
    subst h2; subst hk
    rcases nd with _ | d
    · simp at h1
    · cases d <;> try (simp at h1)
      rfl
  · obtain ⟨h1, h2⟩ := h
    rw [Option.isNone_iff_eq_none] at h2
    subst h2; subst hk
    rcases nd with _ | d
    · simp at h1
    · cases d <;> try (simp at h1)
      rfl
  · obtain ⟨h1, h2⟩ := h
    rw [Option.isNone_iff_eq_none] at h1 h2
    subst h1; subst h2; subst hk
    rfl
  · obtain ⟨h1, h2⟩ := h
    rcases cu with _ | r
    · simp at h2
    · rcases nd with _ | d
      · simp at h1
      · subst hk
        have h2' : List.contains reg r = true := h2
        have h2'' : r ∈ reg := by simpa using h2'
        simp [decodeNode, encodeNode, lookupReg, kindOfTag, tagOfKind, h2'']
  · cases h

theorem fromPicklableGo_encode : ∀ (reg : Registry) (ns : List Node),
    (∀ n ∈ ns, encNodeOk reg n = true) →
    fromPicklableGo reg (ns.map encodeNode) = .ok ns
  | reg, [], _ => rfl
  | reg, n :: ns, h => by
    simp only [List.map_cons, fromPicklableGo]
    rw [decode_encode_node reg n (h n (List.mem_cons_self n ns))]
    rw [fromPicklableGo_encode reg ns (fun m hm => h m (List.mem_cons_of_mem n hm))]

theorem nodeEq_refl (n : Node) : nodeEq n n = true := by
  simp only [nodeEq]
  rw [if_neg (by simp)]
  rcases hd : n.node_data with _ | d
  · rfl
  · exact beqObj_refl d

theorem allNodeEq_refl : ∀ t : List Node,
    ((t.zip t).all fun p => nodeEq p.1 p.2) = true
  | [] => rfl
  | n :: t => by
    simp only [List.zip_cons_cons, List.all_cons, Bool.and_eq_true]
    exact ⟨nodeEq_refl n, allNodeEq_refl t⟩

theorem specEq_refl (s : PyTreeSpec) : specEq s s = true := by
  simp only [specEq]
  rw [if_neg (by simp)]
  exact allNodeEq_refl s.traversal



theorem nodeEq_iff (x y : Node) : nodeEq x y = true ↔
    (x.kind = y.kind ∧ x.arity = y.arity ∧ x.node_data.isSome = y.node_data.isSome ∧
     x.custom = y.custom ∧
     ∀ d e, x.node_data = Option.some d → y.node_data = Option.some e → d = e) := by
  simp only [nodeEq]
  split
  · rename_i hcond
    constructor
    · intro hf; exact absurd hf (by decide)
    · rintro ⟨h1, h2, h3, h4, _⟩
      rcases hcond with hc | hc | hc | hc
      exacts [absurd h1 hc, absurd h2 hc, absurd h3 hc, absurd h4 hc]
  · rename_i hcond
    push_neg at hcond
    obtain ⟨h1, h2, h3, h4⟩ := hcond
    rcases hx : x.node_data with _ | d <;> rcases hy : y.node_data with _ | e
    · simp [h1, h2, h4, hx, hy]
    · rw [hx, hy] at h3; simp at h3
    · rw [hx, hy] at h3; simp at h3
    · have hbeq := beqObj_iff d e
      simp [h1, h2, h4, hx, hy, hbeq]

theorem specEq_iff (a b : PyTreeSpec) : specEq a b = true ↔
    (a.traversal.length = b.traversal.length ∧
     ∀ p ∈ a.traversal.zip b.traversal,
       p.1.kind = p.2.kind ∧ p.1.arity = p.2.arity ∧
       p.1.node_data.isSome = p.2.node_data.isSome ∧ p.1.custom = p.2.custom ∧
       ∀ d e, p.1.node_data = Option.some d → p.2.node_data = Option.some e → d = e) := by
  simp only [specEq]
  split
  · rename_i hlen
    constructor
    · intro hf; exact absurd hf (by decide)
    · rintro ⟨h1, _⟩; exact absurd h1 hlen
  · rename_i hlen
    push_neg at hlen
    rw [List.all_eq_true]
    constructor
    · intro hall
      refine ⟨hlen, fun p hp => (nodeEq_iff p.1 p.2).mp (hall p hp)⟩
    · rintro ⟨_, hall⟩
      exact fun p hp => (nodeEq_iff p.1 p.2).mpr (hall p hp)

/-! ## Claim theorems -/

/-- C9: a mapping node whose key list contains duplicate keys
reconstructs without error; children are inserted in key order, each later
duplicate key overwriting the earlier value (last one wins), so the
resulting mapping can hold fewer entries than the node's arity while
exactly arity children are consumed (the two-leaf walk above still ends
in a singleton result). -/
theorem C9_theorem :
    unflattenImpl sampleDupKeySpec [.intVal 1, .intVal 2] =
      .ok (.dictV [(.str "a", .intVal 2)]) ∧
    (dictOfPairs [(.str "a", .intVal 1), (.str "a", .intVal 2)]).length = 1 ∧
    (∀ (d : List (PyObj × PyObj)) (k v : PyObj),
      dictLookup (dictAssign d k v) k = Option.some v) ∧
    (∀ ps : List (PyObj × PyObj), (dictOfPairs ps).length ≤ ps.length) :=
  ⟨rfl, rfl, dictLookup_assign, dictOfPairs_length_le⟩

/-- C7 counterexample: rendering the §8 dict structure produces exactly
the string with the `PyTreeSpec(...)` wrapper and the capitalized `None`
token, which differs from the spec's claimed exact render
`Spec({'a': [*, *], 'b': none})`. -/
theorem C7_counterexample :
    toStringImpl sampleDictSpec =
      .ok "PyTreeSpec(\x7b\x27a\x27: [*, *], \x27b\x27: None\x7d)" ∧
    toStringImpl sampleDictSpec ≠
      .ok "Spec(\x7b\x27a\x27: [*, *], \x27b\x27: none\x7d)" :=
  ⟨rfl, by decide⟩

/-- C7 amended: every successful render is wrapped in the outer
`PyTreeSpec(...)` marker; a tuple node of arity 1 renders its child in
parentheses with a disambiguating trailing comma; and the §8 dict
structure renders exactly as `PyTreeSpec({'a': [*, *], 'b': None})`. -/
theorem C7_theorem :
    (∀ (s : PyTreeSpec) (r : String), toStringImpl s = .ok r →
      ∃ inner, r = "PyTreeSpec(" ++ inner ++ ")") ∧
    (∀ (n : Node) (rest : List Node) (frag : String) (ag : List String),
      n.kind = PyTreeKind.Tuple → n.arity = 1 →
      toStringGo (n :: rest) (frag :: ag) =
        toStringGo rest (("(" ++ frag ++ ",)") :: ag)) ∧
    toStringImpl sampleTuple1Spec = .ok "PyTreeSpec((*,))" ∧
    toStringImpl sampleDictSpec =
      .ok "PyTreeSpec(\x7b\x27a\x27: [*, *], \x27b\x27: None\x7d)" := by
  refine ⟨?_, ?_, rfl, rfl⟩
  · intro s r h
    simp only [toStringImpl] at h
    rcases htg : toStringGo s.traversal [] with e | ag <;> rw [htg] at h
    · cases h
    · rcases ag with _ | ⟨a, _ | ⟨b, rest⟩⟩
      · cases h
      · exact ⟨a, by injection h with h; exact h.symm⟩
      · cases h
  · intro n rest frag ag hk ha
    have hif : ¬ (((frag :: ag).length : Int) < (1 : Int)) := by
      simp [List.length_cons]
    have hs : ("(" ++ (frag ++ ",") ++ ")") = ("(" ++ frag ++ ",)") := by
      have h1 : (("," : String) ++ ")") = ",)" := rfl
      rw [← h1, ← String.append_assoc, ← String.append_assoc]
    have hgo : String.intercalate ", " ((List.take (Int.toNat 1) (frag :: ag)).reverse) =
      frag := rfl
    have hdrop : List.drop (Int.toNat 1) (frag :: ag) = ag := rfl
    simp only [toStringGo, hk, ha, if_neg hif, if_true, hgo, hdrop, hs]

/-- C7 witness: the wrapper fact at the one-element-tuple Spec and the
trailing-comma step at a concrete arity-1 tuple node. -/
theorem C7_witness :
    (∃ inner, "PyTreeSpec((*,))" = "PyTreeSpec(" ++ inner ++ ")") ∧
    toStringGo [nodeTuple 1] ["*"] = toStringGo [] [("(" ++ "*" ++ ",)")] :=
  ⟨C7_theorem.1 sampleTuple1Spec "PyTreeSpec((*,))" rfl,
   C7_theorem.2.1 (nodeTuple 1) [] "*" [] rfl rfl⟩

/-- C10: deserialization stores an out-of-range kind tag (99) and a
kind-inconsistent arity (a tuple of arity -1) verbatim without rejecting
them as a malformed encoding; the failure only surfaces later as the
internal logic errors of the unreachable-code branch (reconstruction and
rendering of the tag-99 Spec) and of the arity-mismatch branch
(reconstruction of the arity - 1 tuple Spec). -/
theorem C10_theorem :
    fromPicklableImpl []
      [.tupleV [.intVal 99, .intVal 0, .pyNone, .pyNone, .intVal 0, .intVal 1]] =
      .ok ⟨[⟨.Unknown 99, 0, Option.none, Option.none, 0, 1⟩]⟩ ∧
    unflattenImpl ⟨[⟨.Unknown 99, 0, Option.none, Option.none, 0, 1⟩]⟩ [] =
      .error .logicUnreachable ∧
    toStringImpl ⟨[⟨.Unknown 99, 0, Option.none, Option.none, 0, 1⟩]⟩ =
      .error .logicUnreachable ∧
    fromPicklableImpl []
      [.tupleV [.intVal 2, .intVal (-1), .pyNone, .pyNone, .intVal 0, .intVal 1]] =
      .ok ⟨[⟨.Tuple, -1, Option.none, Option.none, 0, 1⟩]⟩ ∧
    unflattenImpl ⟨[⟨.Tuple, -1, Option.none, Option.none, 0, 1⟩]⟩ [] =
      .error .logicArityMismatch :=
  ⟨rfl, rfl, rfl, rfl, rfl⟩

/-- C2 counterexample: the claim says deserialization re-validates every
Spec invariant, in particular post-order consistency, rejecting violating
encodings.  The single-record encoding of a tuple node of arity 1 (whose
stack machine underflows) is accepted by `FromPicklableImpl`; the
underflow only surfaces when the decoded Spec is used. -/
theorem C2_counterexample :
    fromPicklableImpl []
      [.tupleV [.intVal 2, .intVal 1, .pyNone, .pyNone, .intVal 1, .intVal 2]] =
      .ok ⟨[⟨.Tuple, 1, Option.none, Option.none, 1, 2⟩]⟩ ∧
    postOrderValid ⟨[⟨.Tuple, 1, Option.none, Option.none, 1, 2⟩]⟩ = false ∧
    unflattenImpl ⟨[⟨.Tuple, 1, Option.none, Option.none, 1, 2⟩]⟩ [] =
      .error .logicTooFewElementsNode :=
  ⟨rfl, rfl, rfl⟩



/-- C1 counterexample: the claim says a `NoneMarker` node pushes the
canonical none value without consuming a leaf, so reconstructing the
one-node `None` Spec from an empty leaf sequence would succeed with the
none value and `NoneMarker` subtrees would contribute nothing to leaf
consumption.  In the code the `None` kind shares `UnflattenImpl`'s leaf
branch: the one-node `None` Spec fails on the empty sequence with the
exhausted-leaves error, and on the one-item sequence `[7]` it returns the
consumed item `7`, not a canonical none. -/
theorem C1_counterexample :
    unflattenImpl sampleNoneSpec [] = .error .invalidTooFewLeaves ∧
    unflattenImpl sampleNoneSpec [.intVal 7] = .ok (.intVal 7) :=
  ⟨rfl, rfl⟩

/-- C1 amended: during reconstruction a `None` node is handled by the same
branch as a `Leaf` node — it consumes the next item of the leaf sequence
and pushes that item — and a full walk consumes exactly one leaf per
`Leaf`-or-`None` node (`countLeafLike`), not one per `Leaf` node. -/
theorem C1_theorem :
    (∀ (n : Node) (rest : List Node) (a ls : List PyObj) (x : PyObj),
        n.kind = PyTreeKind.None → ¬ ((a.length : Int) < n.arity) →
        unflattenGo (n :: rest) a (x :: ls) = unflattenGo rest (x :: a) ls) ∧
    (∀ (t : List Node) (a l a' l' : List PyObj),
        unflattenGo t a l = .ok (a', l') → l.length = countLeafLike t + l'.length) := by
  constructor
  · intro n rest a ls x hk hge
    simp [unflattenGo, hk, hge]
  · exact unflattenGo_consumption

/-- C1 witness: the single-step fact at the one-node `None` Spec and the
consumption count over the three-leaf tuple Spec. -/
theorem C1_witness :
    unflattenGo [nodeNone] [] [.intVal 7] = unflattenGo [] [.intVal 7] [] ∧
    ([PyObj.intVal 1, .intVal 2, .intVal 3].length : ℕ) =
      countLeafLike sampleThreeLeafSpec.traversal + ([] : List PyObj).length := by
  constructor
  · exact C1_theorem.1 nodeNone [] [] [] (.intVal 7) rfl (by decide)
  · exact C1_theorem.2 sampleThreeLeafSpec.traversal []
      [.intVal 1, .intVal 2, .intVal 3]
      [.tupleV [.intVal 1, .intVal 2, .intVal 3]] [] (by decide)

/-- C4 counterexample: the pair-of-pairs Spec is valid, every node has
arity at most 2, yet replaying its traversal puts three items on the
agenda, so the agenda is not bounded by the maximum arity. -/
theorem C4_counterexample :
    wfSpec samplePairSpec = true ∧
    maxNodeArity samplePairSpec = 2 ∧
    3 ∈ (unflattenGoT samplePairSpec.traversal []
      [.intVal 1, .intVal 2, .intVal 3, .intVal 4]).1 ∧
    ¬ (∀ x ∈ (unflattenGoT samplePairSpec.traversal []
        [.intVal 1, .intVal 2, .intVal 3, .intVal 4]).1,
        (x : Int) ≤ maxNodeArity samplePairSpec) := by
  refine ⟨by decide, by decide, by decide, ?_⟩
  intro h
  have := h 3 (by decide)
  revert this
  decide

/-- C4 amended: the instrumented machine agrees with `unflattenGo`, and
every agenda size reached while reconstructing a Spec is bounded by the
number of traversal nodes (not by the maximum arity). -/
theorem C4_theorem :
    (∀ (t : List Node) (a l : List PyObj), (unflattenGoT t a l).2 = unflattenGo t a l) ∧
    (∀ (s : PyTreeSpec) (l : List PyObj) (x : ℕ),
        x ∈ (unflattenGoT s.traversal [] l).1 → x ≤ s.traversal.length) := by
  constructor
  · exact unflattenGoT_snd
  · intro s l x hx
    simpa using unflattenGoT_bound s.traversal [] l x hx

/-- C4 witness: the agenda depth 3 reached on the pair-of-pairs Spec is
within the node-count bound 7. -/
theorem C4_witness :
    3 ∈ (unflattenGoT samplePairSpec.traversal []
      [.intVal 1, .intVal 2, .intVal 3, .intVal 4]).1 ∧
    (3 : ℕ) ≤ samplePairSpec.traversal.length :=
  ⟨by decide,
   C4_theorem.2 samplePairSpec [.intVal 1, .intVal 2, .intVal 3, .intVal 4] 3 (by decide)⟩

/-- C6: for a valid Spec, reconstruction fails with the exhausted-leaves
error exactly when the sequence is shorter than the number of
leaf-consuming nodes, fails with the too-many-leaves error exactly when it
is longer, and succeeds exactly when the lengths agree; a Spec requiring 3
leaves fails accordingly on 2- and 4-item sequences, and a completed walk
whose final agenda is not a singleton fails with the malformed-spec
(singleton) error. -/
theorem C6_theorem (s : PyTreeSpec) (l : List PyObj) (hwf : wfSpec s = true) :
    (unflattenImpl s l = .error .invalidTooFewLeaves ↔
      l.length < countLeafLike s.traversal) ∧
    (unflattenImpl s l = .error .invalidTooManyLeaves ↔
      countLeafLike s.traversal < l.length) ∧
    ((∃ v, unflattenImpl s l = .ok v) ↔ l.length = countLeafLike s.traversal) ∧
    (∀ (t : PyTreeSpec) (l' : List PyObj) (a' : List PyObj),
      unflattenGo t.traversal [] l' = .ok (a', []) → a'.length ≠ 1 →
      unflattenImpl t l' = .error .logicNotSingleton) ∧
    sampleThreeLeafSpec.numLeaves = 3 ∧
    countLeafLike sampleThreeLeafSpec.traversal = 3 ∧
    unflattenImpl sampleThreeLeafSpec [.intVal 1, .intVal 2] =
      .error .invalidTooFewLeaves ∧
    unflattenImpl sampleThreeLeafSpec [.intVal 1, .intVal 2, .intVal 3, .intVal 4] =
      .error .invalidTooManyLeaves := by
  have hsing : ∀ (t : PyTreeSpec) (l' : List PyObj) (a' : List PyObj),
      unflattenGo t.traversal [] l' = .ok (a', []) → a'.length ≠ 1 →
      unflattenImpl t l' = .error .logicNotSingleton := by
    intro t l' a' hgo hne
    rcases a' with _ | ⟨v, _ | _⟩ <;> simp_all [unflattenImpl]
  have hwf' := hwf
  simp only [wfSpec, Bool.and_eq_true, beq_iff_eq] at hwf'
  obtain ⟨hall, hrun⟩ := hwf'
  have hrun0 : postOrderRun s.traversal ((([] : List PyObj).length : Int)) =
      Option.some 1 := by simpa using hrun
  have main := unflattenGo_run s.traversal [] l 1 hall hrun0
  rcases Nat.lt_trichotomy l.length (countLeafLike s.traversal) with hlt | heq | hgt
  · rw [if_pos hlt] at main
    refine ⟨by simp [unflattenImpl, main, hlt], by simp [unflattenImpl, main]; omega,
      by simp [unflattenImpl, main]; omega, hsing, rfl, rfl, rfl, rfl⟩
  · rw [if_neg (by omega)] at main
    obtain ⟨a', hgo, hlen⟩ := main
    have ha1 : a'.length = 1 := by exact_mod_cast hlen
    obtain ⟨v, rfl⟩ := List.length_eq_one.mp ha1
    have hdrop : l.drop (countLeafLike s.traversal) = [] := by
      rw [← heq]; exact List.drop_length l
    rw [hdrop] at hgo
    refine ⟨by simp [unflattenImpl, hgo]; omega, by simp [unflattenImpl, hgo]; omega,
      ⟨fun _ => heq, fun _ => ⟨v, by simp [unflattenImpl, hgo]⟩⟩, hsing, rfl, rfl, rfl, rfl⟩
  · rw [if_neg (by omega)] at main
    obtain ⟨a', hgo, hlen⟩ := main
    have hne : l.drop (countLeafLike s.traversal) ≠ [] := by
      apply List.ne_nil_of_length_pos
      simp only [List.length_drop]
      omega
    refine ⟨by simp [unflattenImpl, hgo, hne]; omega,
      by simp [unflattenImpl, hgo, hne]; omega,
      by simp [unflattenImpl, hgo, hne]; omega, hsing, rfl, rfl, rfl, rfl⟩

/-- C6 witness: the three-leaf Spec applied to a two-item sequence. -/
theorem C6_witness :
    (unflattenImpl sampleThreeLeafSpec [.intVal 1, .intVal 2] =
        .error .invalidTooFewLeaves ↔
      [PyObj.intVal 1, .intVal 2].length < countLeafLike sampleThreeLeafSpec.traversal) ∧
    (unflattenImpl sampleThreeLeafSpec [.intVal 1, .intVal 2] =
        .error .invalidTooManyLeaves ↔
      countLeafLike sampleThreeLeafSpec.traversal < [PyObj.intVal 1, .intVal 2].length) ∧
    ((∃ v, unflattenImpl sampleThreeLeafSpec [.intVal 1, .intVal 2] = .ok v) ↔
      [PyObj.intVal 1, .intVal 2].length = countLeafLike sampleThreeLeafSpec.traversal) ∧
    (∀ (t : PyTreeSpec) (l' : List PyObj) (a' : List PyObj),
      unflattenGo t.traversal [] l' = .ok (a', []) → a'.length ≠ 1 →
      unflattenImpl t l' = .error .logicNotSingleton) ∧
    sampleThreeLeafSpec.numLeaves = 3 ∧
    countLeafLike sampleThreeLeafSpec.traversal = 3 ∧
    unflattenImpl sampleThreeLeafSpec [.intVal 1, .intVal 2] =
      .error .invalidTooFewLeaves ∧
    unflattenImpl sampleThreeLeafSpec [.intVal 1, .intVal 2, .intVal 3, .intVal 4] =
      .error .invalidTooManyLeaves :=
  C6_theorem sampleThreeLeafSpec [.intVal 1, .intVal 2] (by decide)

/-- C8: the empty Spec is accepted by deserialization, reports zero
leaves, and reconstruction always fails on it: with the not-a-singleton
malformed-spec error on the empty leaf sequence, and with the
too-many-leaves error on any nonempty sequence. -/
theorem C8_theorem :
    (∀ reg : Registry, fromPicklableImpl reg [] = .ok emptySpec) ∧
    emptySpec.numLeaves = 0 ∧
    unflattenImpl emptySpec [] = .error .logicNotSingleton ∧
    (∀ leaves : List PyObj,
      unflattenImpl emptySpec leaves = .error .invalidTooManyLeaves ∨
      unflattenImpl emptySpec leaves = .error .logicNotSingleton) := by
  refine ⟨fun _ => rfl, rfl, rfl, ?_⟩
  intro leaves
  cases leaves
  · right; rfl
  · left; rfl


/-- C2 amended: deserialization re-validates only the per-record
invariants — auxiliary-data presence and shape appropriate to the kind,
and a resolvable registration exactly on `Custom` nodes — on every node of
the Spec it returns; it does not re-validate post-order consistency (the
counterexample exhibits an accepted encoding whose stack machine
underflows). -/
theorem C2_theorem (reg : Registry) (items : List PyObj) (s : PyTreeSpec)
    (h : fromPicklableImpl reg items = .ok s) :
    ∀ n ∈ s.traversal, decodedNodeOk reg n = true := by
  simp only [fromPicklableImpl] at h
  rcases hg : fromPicklableGo reg items with e | ns <;> rw [hg] at h
  · cases h
  · cases h
    exact fromPicklableGo_ok reg items ns hg

/-- C2 witness: the guarantee instantiated on the decoded encoding of the
§8 dict Spec, at its leaf node. -/
theorem C2_witness : decodedNodeOk [] nodeLeaf = true :=
  C2_theorem [] (toPicklable sampleDictSpec) sampleDictSpec rfl nodeLeaf (by decide)

/-- C3: for a Spec whose nodes satisfy the §3 serialization invariants and
whose custom registrations are present in the registry, decoding the
encoding returns the identical Spec, which is structurally equal to the
original under the §4.4 comparison. -/
theorem C3_theorem (reg : Registry) (s : PyTreeSpec)
    (h : ∀ n ∈ s.traversal, encNodeOk reg n = true) :
    fromPicklableImpl reg (toPicklable s) = .ok s ∧ specEq s s = true := by
  constructor
  · simp only [fromPicklableImpl, toPicklable]
    rw [fromPicklableGo_encode reg s.traversal h]
  · exact specEq_refl s

/-- C3 witness: the round trip at the §8 dict Spec (empty registry) and at
a Spec with a registered custom root. -/
theorem C3_witness :
    (fromPicklableImpl [] (toPicklable sampleDictSpec) = .ok sampleDictSpec ∧
      specEq sampleDictSpec sampleDictSpec = true) ∧
    (fromPicklableImpl ["MyPair"] (toPicklable sampleCustomSpec) = .ok sampleCustomSpec ∧
      specEq sampleCustomSpec sampleCustomSpec = true) :=
  ⟨C3_theorem [] sampleDictSpec (by decide),
   C3_theorem ["MyPair"] sampleCustomSpec (by decide)⟩



/-- C5: structural equality is false on length mismatch and otherwise
compares node-by-node on kind, arity, aux presence, deep aux equality when
both are present, and registration identity; two Specs whose nodes agree
on all of those — with `num_leaves`/`num_nodes` left entirely
unconstrained — compare equal. -/
theorem C5_theorem :
    (∀ a b : PyTreeSpec, specEq a b = true ↔
      (a.traversal.length = b.traversal.length ∧
       ∀ p ∈ a.traversal.zip b.traversal,
         p.1.kind = p.2.kind ∧ p.1.arity = p.2.arity ∧
         p.1.node_data.isSome = p.2.node_data.isSome ∧ p.1.custom = p.2.custom ∧
         ∀ d e, p.1.node_data = Option.some d → p.2.node_data = Option.some e → d = e)) ∧
    (∀ a b : PyTreeSpec, a.traversal.length = b.traversal.length →
      (∀ p ∈ a.traversal.zip b.traversal,
        p.1.kind = p.2.kind ∧ p.1.arity = p.2.arity ∧
        p.1.node_data = p.2.node_data ∧ p.1.custom = p.2.custom) →
      specEq a b = true) := by
  refine ⟨specEq_iff, ?_⟩
  intro a b hlen hall
  rw [specEq_iff]
  refine ⟨hlen, fun p hp => ?_⟩
  obtain ⟨h1, h2, h3, h4⟩ := hall p hp
  exact ⟨h1, h2, by rw [h3], h4,
    fun d e hd he => by rw [hd, he] at h3; exact Option.some.inj h3⟩

/-- C5 witness: the three-leaf Spec compares equal to its copy with
deliberately wrong `num_leaves`/`num_nodes` fields. -/
theorem C5_witness : specEq sampleThreeLeafSpec sampleMiscountSpec = true :=
  C5_theorem.2 sampleThreeLeafSpec sampleMiscountSpec (by decide) (by decide)


end optree
